import Mathlib

/-!
Verification of the `POST /generate` handler in `src/app.py`.

The handler reads a comma-separated string of distances from the form,
parses each token as a float, deduplicates and sorts the values, validates
them, and either returns a JSON error (status 400) or calls the mesh
generator `generate_wheel_stl` and streams the file back (status 200).

Numbers are modelled as rationals; strings are handled through their
character lists so that splitting and trimming are inductively defined.
-/

namespace App

/-- `distances_str.split(",")` on a character list: every comma separates
segments and empty segments are kept, so `split` of the empty list is
one empty segment. -/
def splitCommas : List Char → List (List Char)
  | [] => [[]]
  | c :: rest =>
    if c = ',' then [] :: splitCommas rest
    else
      match splitCommas rest with
      | [] => [[c]]
      | t :: ts => (c :: t) :: ts

/-- Drop trailing whitespace characters. -/
def dropTrailing (cs : List Char) : List Char :=
  (cs.reverse.dropWhile Char.isWhitespace).reverse

/-- `x.strip()`: drop leading and trailing whitespace characters. -/
def trimChars (cs : List Char) : List Char :=
  dropTrailing (cs.dropWhile Char.isWhitespace)

/-- Numeric value of a list of decimal digit characters. -/
def digitsToNat (cs : List Char) : Nat :=
  cs.foldl (fun n c => 10 * n + (c.toNat - '0'.toNat)) 0

/-- Optional leading sign of a numeric literal: its value and the rest. -/
def parseSign : List Char → Int × List Char
  | '+' :: r => (1, r)
  | '-' :: r => (-1, r)
  | cs => (1, cs)

/-- Mantissa of a decimal literal: `digits`, `digits.`, `digits.digits` or
`.digits`, with at least one digit present; returns the value of the digit
string with the decimal point removed, the number of fractional digits,
and the remaining characters. -/
def parseMantissa (cs : List Char) : Option (Nat × Nat × List Char) :=
  let ip := cs.takeWhile Char.isDigit
  let rest := cs.dropWhile Char.isDigit
  match rest with
  | '.' :: rest2 =>
    let fp := rest2.takeWhile Char.isDigit
    let rest3 := rest2.dropWhile Char.isDigit
    if ip.isEmpty && fp.isEmpty then none
    else some (digitsToNat (ip ++ fp), fp.length, rest3)
  | _ => if ip.isEmpty then none else some (digitsToNat ip, 0, rest)

/-- Exponent suffix `e`/`E` with optional sign and mandatory digits; when
the input does not start with `e`/`E` the exponent is `0` and nothing is
consumed. -/
def parseExponent (cs : List Char) : Option (Int × List Char) :=
  match cs with
  | 'e' :: r =>
    let sg : Int := match r with | '-' :: _ => -1 | _ => 1
    let r2 := match r with | '+' :: r2 => r2 | '-' :: r2 => r2 | _ => r
    let ds := r2.takeWhile Char.isDigit
    if ds.isEmpty then none
    else some (sg * digitsToNat ds, r2.dropWhile Char.isDigit)
  | 'E' :: r =>
    let sg : Int := match r with | '-' :: _ => -1 | _ => 1
    let r2 := match r with | '+' :: r2 => r2 | '-' :: r2 => r2 | _ => r
    let ds := r2.takeWhile Char.isDigit
    if ds.isEmpty then none
    else some (sg * digitsToNat ds, r2.dropWhile Char.isDigit)
  | _ => some (0, cs)

/-- The rational value `s * m * 10 ^ e` denoted by sign `s`, digit value
`m` and decimal exponent `e`. -/
def decValue (s : Int) (m : Nat) (e : Int) : ℚ :=
  if 0 ≤ e then mkRat (s * (m * 10 ^ e.toNat : Nat)) 1
  else mkRat (s * m) (10 ^ (-e).toNat)

/-- Python `float()` applied to a stripped token, restricted to finite
decimal literals (optional sign, mantissa, optional exponent); returns
`none` where `float()` raises `ValueError`.  The `inf`/`nan` spellings and
digit-group underscores accepted by CPython are not modelled. -/
def parseFloat (cs : List Char) : Option ℚ :=
  let (sg, cs1) := parseSign cs
  match parseMantissa cs1 with
  | none => none
  | some (m, k, rest) =>
    match parseExponent rest with
    | none => none
    | some (e, rest2) =>
      if rest2.isEmpty then some (decValue sg m (e - k)) else none

/-- The kept tokens of the comprehension
`[x.strip() for x in distances_str.split(",") if x.strip()]`:
split on commas, strip, and drop tokens that are empty after stripping. -/
def tokensC (cs : List Char) : List (List Char) :=
  ((splitCommas cs).map trimChars).filter (fun t => !t.isEmpty)

/-- Apply `float` to each kept token in order; the first failing token
aborts the whole comprehension, as the raised `ValueError` does. -/
def parseTokens : List (List Char) → Option (List ℚ)
  | [] => some []
  | t :: ts =>
    match parseFloat t with
    | none => none
    | some d =>
      match parseTokens ts with
      | none => none
      | some ds => some (d :: ds)

/-- `[float(x.strip()) for x in distances_str.split(",") if x.strip()]`:
`none` models the `ValueError` branch of the `try`. -/
def parseDistancesC (cs : List Char) : Option (List ℚ) :=
  parseTokens (tokensC cs)

/-- Token list of a string input. -/
def tokens (s : String) : List (List Char) :=
  tokensC s.toList

/-- Parsed distance list of a string input. -/
def parseDistances (s : String) : Option (List ℚ) :=
  parseDistancesC s.toList

/-- `sorted(set(distances))`: the distinct values in ascending order. -/
def sortedSet (l : List ℚ) : List ℚ :=
  List.insertionSort (· ≤ ·) l.dedup

/-- The form fields of a `POST /generate` request; `none` is an absent
field. -/
structure Form where
  distances_mm : Option String
  distances : Option String
deriving DecidableEq

/-- Python `a or b` for an optional string `a`: `None` and `""` are falsy. -/
def orElseStr (a : Option String) (b : String) : String :=
  match a with
  | some s => if s.isEmpty then b else s
  | none => b

/-- `request.form.get("distances_mm") or request.form.get("distances") or ""`. -/
def formValue (f : Form) : String :=
  orElseStr f.distances_mm (orElseStr f.distances "")

/-- A form field is absent or holds the empty string, i.e. is falsy. -/
def absentOrEmpty (o : Option String) : Prop :=
  o = none ∨ o = some ""

/-- Append `ws` to the last segment of a segment list (helper for
reasoning about `splitCommas` of an extended input). -/
def appendLast (ws : List Char) : List (List Char) → List (List Char)
  | [] => [ws]
  | [t] => [t ++ ws]
  | t :: ts => t :: appendLast ws ts

/-- The HTTP response produced by the handler: a JSON error body with
status 400, or a file download with status 200. -/
inductive Response where
  | jsonError (msg : String)
  | fileDownload (downloadName : String) (mimetype : String)
deriving DecidableEq

/-- HTTP status code of a response. -/
def Response.status : Response → Nat
  | .jsonError _ => 400
  | .fileDownload _ _ => 200

/-- Observable outcome of one request: the response together with the side
effects (whether `tempfile.mkdtemp()` ran, and the distance list passed to
`generate_wheel_stl` when that call was made). -/
structure Outcome where
  resp : Response
  tmpdirCreated : Bool
  stlCall : Option (List ℚ)
deriving DecidableEq

/-- The `POST /generate` handler of `src/app.py`. -/
def generate (f : Form) : Outcome :=
  let distances_str := formValue f
  match parseDistances distances_str with
  | none =>
    ⟨.jsonError "Distances must be numbers separated by commas.", false, none⟩
  | some parsed =>
    let distances := sortedSet parsed
    if distances.length < 2 then
      ⟨.jsonError "Please enter at least two distances.", false, none⟩
    else if distances.any (fun d => decide (d ≤ 0)) then
      ⟨.jsonError "All distances must be > 0.", false, none⟩
    else if distances.any (fun d => decide (30 < d)) then
      ⟨.jsonError "Max allowed distance is 30mm.", false, none⟩
    else
      ⟨.fileDownload "2pd_wheel.stl" "model/stl", true, some distances⟩

/-! ### The full `float()` value domain: nan and the infinities

`parseFloat` above covers the finite decimal literals only; CPython
`float()` also accepts the spellings `nan`, `inf` and `infinity` in any
case with an optional sign.  The pipeline below carries these special
values through the handler, with every comparison against nan false as in
IEEE 754, and is used to examine the validation checks on the full input
domain.  The rational pipeline above remains the model for inputs made of
finite decimal literals. -/

/-- A CPython float value: a finite number, a signed infinity, or nan.
Binary64 rounding of finite values is not modelled. -/
inductive PyFloat where
  | num (q : ℚ)
  | inf (neg : Bool)
  | nan
deriving DecidableEq

/-- Strict `<` on float values; every comparison involving nan is false. -/
def pyLt : PyFloat → PyFloat → Bool
  | .num a, .num b => decide (a < b)
  | .num _, .inf neg => !neg
  | .inf neg, .num _ => neg
  | .inf a, .inf b => a && !b
  | _, _ => false

/-- Non-strict `<=` on float values; every comparison involving nan is
false, nan included. -/
def pyLe : PyFloat → PyFloat → Bool
  | .nan, _ => false
  | _, .nan => false
  | x, y => pyLt x y || x == y

/-- Equality as `set` membership sees it: nan compares unequal even to
itself, and each parsed nan is a fresh object, so every nan is kept. -/
def pyEq : PyFloat → PyFloat → Bool
  | .nan, _ => false
  | _, .nan => false
  | x, y => x == y

/-- `set(distances)` on float values: drop duplicates under `pyEq`. -/
def pyDedup : List PyFloat → List PyFloat
  | [] => []
  | a :: l => if (pyDedup l).any (pyEq a) then pyDedup l else a :: pyDedup l

/-- `sorted(set(distances))` on float values.  When nan is present
CPython's result order is unspecified (every comparison is false); the
model fixes the order insertion sort produces, which has the same
membership. -/
def sortedSetPy (l : List PyFloat) : List PyFloat :=
  List.insertionSort (fun a b => pyLe a b = true) (pyDedup l)

/-- CPython `float()` on a stripped token: the finite decimal literals of
`parseFloat`, plus the `nan` / `inf` / `infinity` spellings in any case
with an optional sign.  Digit-group underscores are still not modelled. -/
def parseFloatPy (cs : List Char) : Option PyFloat :=
  let (sg, cs1) := parseSign cs
  let low := cs1.map Char.toLower
  if low = ['n', 'a', 'n'] then some .nan
  else if low = ['i', 'n', 'f'] ∨ low = ['i', 'n', 'f', 'i', 'n', 'i', 't', 'y'] then
    some (.inf (decide (sg < 0)))
  else
    match parseMantissa cs1 with
    | none => none
    | some (m, k, rest) =>
      match parseExponent rest with
      | none => none
      | some (e, rest2) =>
        if rest2.isEmpty then some (.num (decValue sg m (e - k))) else none

/-- `parseTokens` over the full float domain. -/
def parseTokensPy : List (List Char) → Option (List PyFloat)
  | [] => some []
  | t :: ts =>
    match parseFloatPy t with
    | none => none
    | some d =>
      match parseTokensPy ts with
      | none => none
      | some ds => some (d :: ds)

/-- Parsed distance list of a string input over the full float domain. -/
def parseDistancesPy (s : String) : Option (List PyFloat) :=
  parseTokensPy (tokensC s.toList)

/-- Outcome of a request over the full float domain. -/
structure OutcomePy where
  resp : Response
  tmpdirCreated : Bool
  stlCall : Option (List PyFloat)
deriving DecidableEq

/-- The `POST /generate` handler over the full float domain: the same
route as `generate`, with `d <= 0` and `d > 30` read as float
comparisons, which are false whenever `d` is nan. -/
def generatePy (f : Form) : OutcomePy :=
  let distances_str := formValue f
  match parseDistancesPy distances_str with
  | none =>
    ⟨.jsonError "Distances must be numbers separated by commas.", false, none⟩
  | some parsed =>
    let distances := sortedSetPy parsed
    if distances.length < 2 then
      ⟨.jsonError "Please enter at least two distances.", false, none⟩
    else if distances.any (fun d => pyLe d (.num 0)) then
      ⟨.jsonError "All distances must be > 0.", false, none⟩
    else if distances.any (fun d => pyLt (.num 30) d) then
      ⟨.jsonError "Max allowed distance is 30mm.", false, none⟩
    else
      ⟨.fileDownload "2pd_wheel.stl" "model/stl", true, some distances⟩

/-! ### Unfolding lemmas for the handler -/

theorem generate_parse_none {f : Form}
    (hp : parseDistances (formValue f) = none) :
    generate f =
      ⟨.jsonError "Distances must be numbers separated by commas.", false, none⟩ := by
  simp only [generate, hp]

theorem generate_parse_some {f : Form} {ds : List ℚ}
    (hp : parseDistances (formValue f) = some ds) :
    generate f =
      if (sortedSet ds).length < 2 then
        ⟨.jsonError "Please enter at least two distances.", false, none⟩
      else if (sortedSet ds).any fun d => decide (d ≤ 0) then
        ⟨.jsonError "All distances must be > 0.", false, none⟩
      else if (sortedSet ds).any fun d => decide (30 < d) then
        ⟨.jsonError "Max allowed distance is 30mm.", false, none⟩
      else
        ⟨.fileDownload "2pd_wheel.stl" "model/stl", true, some (sortedSet ds)⟩ := by
  simp only [generate, hp]

/-! ### Properties of `sortedSet` and `parseTokens` -/

theorem mem_sortedSet {x : ℚ} {l : List ℚ} : x ∈ sortedSet l ↔ x ∈ l := by
  unfold sortedSet
  rw [List.mem_insertionSort]
  exact List.mem_dedup

theorem sortedSet_sorted (l : List ℚ) : (sortedSet l).Sorted (· < ·) := by
  apply List.Sorted.lt_of_le
  · exact List.sorted_insertionSort _ _
  · exact ((List.perm_insertionSort _ _).nodup_iff).2 (List.nodup_dedup l)

theorem parseTokens_eq_none_of_mem {t : List Char} {ts : List (List Char)}
    (ht : t ∈ ts) (hbad : parseFloat t = none) : parseTokens ts = none := by
  induction ts with
  | nil => cases ht
  | cons a ts ih =>
    unfold parseTokens
    rcases List.mem_cons.mp ht with rfl | hmem
    · rw [hbad]
    · cases hpa : parseFloat a
      · rfl
      · rw [ih hmem]

/-! ### Splitting and trimming lemmas -/

theorem splitCommas_ne_nil (cs : List Char) : splitCommas cs ≠ [] := by
  induction cs with
  | nil => simp [splitCommas]
  | cons c rest ih =>
    unfold splitCommas
    split
    · simp
    · split <;> simp

theorem splitCommas_append_comma (a b : List Char) :
    splitCommas (a ++ ',' :: b) = splitCommas a ++ splitCommas b := by
  induction a with
  | nil => simp [splitCommas]
  | cons c a ih =>
    simp only [List.cons_append, splitCommas]
    by_cases hc : c = ','
    · simp [hc, ih]
    · simp only [if_neg hc, List.append_eq]
      cases h : splitCommas a with
      | nil => exact absurd h (splitCommas_ne_nil a)
      | cons t ts => simp [ih, h]

theorem splitCommas_nocomma (ws : List Char) (hws : ∀ c ∈ ws, c ≠ ',') :
    splitCommas ws = [ws] := by
  induction ws with
  | nil => rfl
  | cons c ws ih =>
    have hc : ¬ c = ',' := hws c (List.mem_cons_self c ws)
    simp only [splitCommas, if_neg hc]
    rw [ih fun x hx => hws x (List.mem_cons_of_mem c hx)]

theorem splitCommas_nocomma_left (ws b : List Char) (hws : ∀ c ∈ ws, c ≠ ',') :
    splitCommas (ws ++ b) = (splitCommas b).modifyHead (ws ++ ·) := by
  induction ws with
  | nil =>
    cases h : splitCommas b with
    | nil => exact absurd h (splitCommas_ne_nil b)
    | cons t ts => simp [h]
  | cons c ws ih =>
    have hc : ¬ c = ',' := hws c (List.mem_cons_self c ws)
    simp only [List.cons_append, splitCommas, if_neg hc, List.append_eq]
    rw [ih fun x hx => hws x (List.mem_cons_of_mem c hx)]
    cases h : splitCommas b with
    | nil => exact absurd h (splitCommas_ne_nil b)
    | cons t ts => simp [h]

theorem appendLast_cons_of_ne_nil (ws t : List Char) {ts : List (List Char)}
    (h : ts ≠ []) : appendLast ws (t :: ts) = t :: appendLast ws ts := by
  cases ts with
  | nil => exact absurd rfl h
  | cons u us => rfl

theorem splitCommas_nocomma_suffix (a ws : List Char) (hws : ∀ c ∈ ws, c ≠ ',') :
    splitCommas (a ++ ws) = appendLast ws (splitCommas a) := by
  induction a with
  | nil =>
    rw [List.nil_append, splitCommas_nocomma ws hws]
    rfl
  | cons c a ih =>
    simp only [List.cons_append, splitCommas, List.append_eq]
    by_cases hc : c = ','
    · rw [if_pos hc, if_pos hc, ih,
        appendLast_cons_of_ne_nil ws [] (splitCommas_ne_nil a)]
    · rw [if_neg hc, if_neg hc, ih]
      cases h : splitCommas a with
      | nil => exact absurd h (splitCommas_ne_nil a)
      | cons t ts =>
        cases ts with
        | nil => rfl
        | cons u us =>
          rw [appendLast_cons_of_ne_nil ws t (by simp),
            appendLast_cons_of_ne_nil ws (c :: t) (by simp)]

theorem dropWhile_ws_append (ws t : List Char) (hws : ∀ c ∈ ws, c.isWhitespace) :
    (ws ++ t).dropWhile Char.isWhitespace = t.dropWhile Char.isWhitespace := by
  induction ws with
  | nil => rfl
  | cons c ws ih =>
    have hc : c.isWhitespace := hws c (List.mem_cons_self c ws)
    simp only [List.cons_append, List.dropWhile_cons, hc, if_true]
    exact ih fun x hx => hws x (List.mem_cons_of_mem c hx)

theorem trimChars_ws_append (ws t : List Char) (hws : ∀ c ∈ ws, c.isWhitespace) :
    trimChars (ws ++ t) = trimChars t := by
  unfold trimChars
  rw [dropWhile_ws_append ws t hws]

theorem trimChars_append_ws (t ws : List Char) (hws : ∀ c ∈ ws, c.isWhitespace) :
    trimChars (t ++ ws) = trimChars t := by
  unfold trimChars dropTrailing
  by_cases h : t.dropWhile Char.isWhitespace = []
  · have ht : ∀ c ∈ t, c.isWhitespace := List.dropWhile_eq_nil_iff.mp h
    have htw : (t ++ ws).dropWhile Char.isWhitespace = [] := by
      apply List.dropWhile_eq_nil_iff.mpr
      intro c hc
      rcases List.mem_append.mp hc with hct | hcw
      · exact ht c hct
      · exact hws c hcw
    rw [h, htw]
  · have hsplit : (t ++ ws).dropWhile Char.isWhitespace =
        t.dropWhile Char.isWhitespace ++ ws := by
      rw [List.dropWhile_append]
      simp [List.isEmpty_iff, h]
    rw [hsplit, List.reverse_append,
      dropWhile_ws_append ws.reverse (t.dropWhile Char.isWhitespace).reverse
        fun c hc => hws c (List.mem_reverse.mp hc)]

/-! ### Token-level lemmas -/

theorem tokensC_append_comma (a b : List Char) :
    tokensC (a ++ ',' :: b) = tokensC a ++ tokensC b := by
  unfold tokensC
  rw [splitCommas_append_comma, List.map_append, List.filter_append]

theorem tokensC_comma_cons (b : List Char) : tokensC (',' :: b) = tokensC b := by
  have h : (',' :: b) = [] ++ ',' :: b := rfl
  rw [h, tokensC_append_comma]
  rfl

theorem ws_not_comma {ws : List Char} (hws : ∀ c ∈ ws, c.isWhitespace) :
    ∀ c ∈ ws, c ≠ ',' := by
  intro c hc heq
  have h1 := hws c hc
  rw [heq] at h1
  exact absurd h1 (by decide)

theorem tokensC_ws_left (ws b : List Char) (hws : ∀ c ∈ ws, c.isWhitespace) :
    tokensC (ws ++ b) = tokensC b := by
  unfold tokensC
  rw [splitCommas_nocomma_left ws b (ws_not_comma hws)]
  cases h : splitCommas b with
  | nil => exact absurd h (splitCommas_ne_nil b)
  | cons t ts =>
    simp only [List.modifyHead_cons, List.map_cons]
    rw [trimChars_ws_append ws t hws]

theorem map_trim_appendLast (ws : List Char) (S : List (List Char))
    (hws : ∀ c ∈ ws, c.isWhitespace) (hS : S ≠ []) :
    (appendLast ws S).map trimChars = S.map trimChars := by
  induction S with
  | nil => exact absurd rfl hS
  | cons t ts ih =>
    cases ts with
    | nil => simp [appendLast, trimChars_append_ws t ws hws]
    | cons u us =>
      rw [appendLast_cons_of_ne_nil ws t (by simp), List.map_cons, List.map_cons,
        ih (by simp)]

theorem tokensC_ws_suffix (a ws : List Char) (hws : ∀ c ∈ ws, c.isWhitespace) :
    tokensC (a ++ ws) = tokensC a := by
  unfold tokensC
  rw [splitCommas_nocomma_suffix a ws (ws_not_comma hws),
    map_trim_appendLast ws (splitCommas a) hws (splitCommas_ne_nil a)]

/-! ### The claims -/

/-- C1 fails on the code: CPython `float()` accepts `"nan"`, and nan slips
through every validation check because each of its comparisons is false
(`nan <= 0` and `nan > 30` both evaluate false), so for the input
`"nan,1,2"` the handler reaches the mesh-generator call with nan in the
distance list even though `0 < nan` does not hold — against the validation
messages and the spec's domain constraint `0 < d ≤ 30`. -/
theorem C1_nan_reaches_stl_call :
    parseFloatPy ['n', 'a', 'n'] = some PyFloat.nan ∧
      (generatePy ⟨some "nan,1,2", none⟩).resp =
        .fileDownload "2pd_wheel.stl" "model/stl" ∧
      (generatePy ⟨some "nan,1,2", none⟩).tmpdirCreated = true ∧
      PyFloat.nan ∈ ((generatePy ⟨some "nan,1,2", none⟩).stlCall.getD []) ∧
      pyLe PyFloat.nan (PyFloat.num 0) = false ∧
      pyLt (PyFloat.num 30) PyFloat.nan = false ∧
      pyLt (PyFloat.num 0) PyFloat.nan = false := by
  decide

/-- C2 is false as stated: the input `"31"` contains a token parsing to a
value above 30, yet the response carries the too-few-distances message,
because the length check runs before the maximum check. -/
theorem C2_counterexample :
    ['3', '1'] ∈ tokens (formValue ⟨some "31", none⟩) ∧
      parseFloat ['3', '1'] = some 31 ∧ (30 : ℚ) < 31 ∧
      (generate ⟨some "31", none⟩).resp =
        .jsonError "Please enter at least two distances." ∧
      (generate ⟨some "31", none⟩).resp ≠
        .jsonError "Max allowed distance is 30mm." := by
  decide

/-- C2 amended: when parsing succeeds, at least two distinct values
remain, and every parsed value is positive, any value above 30 yields the
400 response with the maximum-distance message. -/
theorem C2_max_distance_amended (f : Form) (ds : List ℚ)
    (hp : parseDistances (formValue f) = some ds)
    (hlen : 2 ≤ (sortedSet ds).length)
    (hpos : ∀ d ∈ ds, 0 < d)
    (hbig : ∃ d ∈ ds, 30 < d) :
    (generate f).resp = .jsonError "Max allowed distance is 30mm." ∧
      (generate f).resp.status = 400 := by
  have h1 : ¬ (sortedSet ds).length < 2 := by omega
  have h2 : ((sortedSet ds).any fun d => decide (d ≤ 0)) = false := by
    rw [List.any_eq_false]
    intro d hd
    simpa using not_le.mpr (hpos d (mem_sortedSet.mp hd))
  have h3 : ((sortedSet ds).any fun d => decide (30 < d)) = true := by
    rcases hbig with ⟨d, hd, hdgt⟩
    exact List.any_eq_true.mpr ⟨d, mem_sortedSet.mpr hd, by simpa using hdgt⟩
  rw [generate_parse_some hp, if_neg h1, h2, h3]
  exact ⟨rfl, rfl⟩

/-- Witness for the amended C2 at the input `"10,31"`. -/
theorem C2_max_distance_amended_witness :
    parseDistances (formValue ⟨some "10,31", none⟩) = some [10, 31] ∧
      2 ≤ (sortedSet [10, 31]).length ∧
      (∀ d ∈ ([10, 31] : List ℚ), 0 < d) ∧
      (∃ d ∈ ([10, 31] : List ℚ), 30 < d) ∧
      ((generate ⟨some "10,31", none⟩).resp =
          .jsonError "Max allowed distance is 30mm." ∧
        (generate ⟨some "10,31", none⟩).resp.status = 400) :=
  ⟨by decide, by decide, by decide, by decide,
    C2_max_distance_amended ⟨some "10,31", none⟩ [10, 31]
      (by decide) (by decide) (by decide) (by decide)⟩

/-- C3 is false as stated: the input `"-1"` contains a token parsing to a
non-positive value, yet the response carries the too-few-distances
message, because the length check runs before the positivity check. -/
theorem C3_counterexample :
    ['-', '1'] ∈ tokens (formValue ⟨some "-1", none⟩) ∧
      parseFloat ['-', '1'] = some (-1) ∧ (-1 : ℚ) ≤ 0 ∧
      (generate ⟨some "-1", none⟩).resp =
        .jsonError "Please enter at least two distances." ∧
      (generate ⟨some "-1", none⟩).resp ≠
        .jsonError "All distances must be > 0." := by
  decide

/-- C3 amended: when parsing succeeds and at least two distinct values
remain, any value `≤ 0` yields the 400 response with the positivity
message. -/
theorem C3_positive_amended (f : Form) (ds : List ℚ)
    (hp : parseDistances (formValue f) = some ds)
    (hlen : 2 ≤ (sortedSet ds).length)
    (hneg : ∃ d ∈ ds, d ≤ 0) :
    (generate f).resp = .jsonError "All distances must be > 0." ∧
      (generate f).resp.status = 400 := by
  have h1 : ¬ (sortedSet ds).length < 2 := by omega
  have h2 : ((sortedSet ds).any fun d => decide (d ≤ 0)) = true := by
    rcases hneg with ⟨d, hd, hdle⟩
    exact List.any_eq_true.mpr ⟨d, mem_sortedSet.mpr hd, by simpa using hdle⟩
  rw [generate_parse_some hp, if_neg h1, h2]
  exact ⟨rfl, rfl⟩

/-- Witness for the amended C3 at the input `"-1,5"`. -/
theorem C3_positive_amended_witness :
    parseDistances (formValue ⟨some "-1,5", none⟩) = some [-1, 5] ∧
      2 ≤ (sortedSet [-1, 5]).length ∧
      (∃ d ∈ ([-1, 5] : List ℚ), d ≤ 0) ∧
      ((generate ⟨some "-1,5", none⟩).resp =
          .jsonError "All distances must be > 0." ∧
        (generate ⟨some "-1,5", none⟩).resp.status = 400) :=
  ⟨by decide, by decide, by decide,
    C3_positive_amended ⟨some "-1,5", none⟩ [-1, 5]
      (by decide) (by decide) (by decide)⟩

/-- C4: when parsing succeeds but fewer than two distinct values remain
after deduplication, the response is a 400 with the too-few-distances
message. -/
theorem C4_too_few_distances (f : Form) (ds : List ℚ)
    (hp : parseDistances (formValue f) = some ds)
    (hlen : (sortedSet ds).length < 2) :
    (generate f).resp = .jsonError "Please enter at least two distances." ∧
      (generate f).resp.status = 400 := by
  rw [generate_parse_some hp, if_pos hlen]
  exact ⟨rfl, rfl⟩

/-- Witness for C4 at the input `"5,5"`, whose two tokens collapse to one
distinct value. -/
theorem C4_too_few_distances_witness :
    parseDistances (formValue ⟨some "5,5", none⟩) = some [5, 5] ∧
      (sortedSet [5, 5]).length < 2 ∧
      ((generate ⟨some "5,5", none⟩).resp =
          .jsonError "Please enter at least two distances." ∧
        (generate ⟨some "5,5", none⟩).resp.status = 400) :=
  ⟨by decide, by decide,
    C4_too_few_distances ⟨some "5,5", none⟩ [5, 5] (by decide) (by decide)⟩

/-- C5: when some kept token (non-empty after stripping) fails to parse as
a number, the handler answers with the 400 parse-error message, and
neither the temporary directory nor the mesh-generator call happens. -/
theorem C5_parse_error (f : Form) (t : List Char)
    (ht : t ∈ tokens (formValue f))
    (hbad : parseFloat t = none) :
    generate f =
      ⟨.jsonError "Distances must be numbers separated by commas.", false, none⟩ := by
  apply generate_parse_none
  unfold parseDistances parseDistancesC
  unfold tokens at ht
  exact parseTokens_eq_none_of_mem ht hbad

/-- Witness for C5 at the input `"abc"`. -/
theorem C5_parse_error_witness :
    ['a', 'b', 'c'] ∈ tokens (formValue ⟨some "abc", none⟩) ∧
      parseFloat ['a', 'b', 'c'] = none ∧
      generate ⟨some "abc", none⟩ =
        ⟨.jsonError "Distances must be numbers separated by commas.", false, none⟩ :=
  ⟨by decide, by decide,
    C5_parse_error ⟨some "abc", none⟩ ['a', 'b', 'c'] (by decide) (by decide)⟩

/-- C6: the input `"5, 3, 3, 7"` parses to `[5, 3, 3, 7]` and its
validated sequence is `[3, 5, 7]`; in general the validated sequence is
strictly ascending and holds exactly the parsed values, so it is the
ascending enumeration of the distinct parsed values. -/
theorem C6_dedup_sort :
    parseDistances "5, 3, 3, 7" = some [5, 3, 3, 7] ∧
      sortedSet [5, 3, 3, 7] = [3, 5, 7] ∧
      ∀ l : List ℚ, (sortedSet l).Sorted (· < ·) ∧
        ∀ x : ℚ, x ∈ sortedSet l ↔ x ∈ l :=
  ⟨by decide, by decide, fun l => ⟨sortedSet_sorted l, fun _ => mem_sortedSet⟩⟩

/-- C7: a request passing every validation check gets the 200 file
download with filename `2pd_wheel.stl` and mimetype `model/stl`. -/
theorem C7_success_response (f : Form) (ds : List ℚ)
    (hp : parseDistances (formValue f) = some ds)
    (hlen : 2 ≤ (sortedSet ds).length)
    (hpos : ∀ d ∈ ds, 0 < d)
    (hle : ∀ d ∈ ds, d ≤ 30) :
    generate f =
      ⟨.fileDownload "2pd_wheel.stl" "model/stl", true, some (sortedSet ds)⟩ ∧
      (generate f).resp.status = 200 := by
  have h1 : ¬ (sortedSet ds).length < 2 := by omega
  have h2 : ((sortedSet ds).any fun d => decide (d ≤ 0)) = false := by
    rw [List.any_eq_false]
    intro d hd
    simpa using not_le.mpr (hpos d (mem_sortedSet.mp hd))
  have h3 : ((sortedSet ds).any fun d => decide (30 < d)) = false := by
    rw [List.any_eq_false]
    intro d hd
    simpa using not_lt.mpr (hle d (mem_sortedSet.mp hd))
  have hout : generate f =
      ⟨.fileDownload "2pd_wheel.stl" "model/stl", true, some (sortedSet ds)⟩ := by
    rw [generate_parse_some hp, if_neg h1, h2, h3]
    rfl
  exact ⟨hout, by rw [hout]; rfl⟩

/-- Witness for C7 at the valid input `"10,20"`. -/
theorem C7_success_response_witness :
    parseDistances (formValue ⟨some "10,20", none⟩) = some [10, 20] ∧
      2 ≤ (sortedSet [10, 20]).length ∧
      (∀ d ∈ ([10, 20] : List ℚ), 0 < d) ∧
      (∀ d ∈ ([10, 20] : List ℚ), d ≤ 30) ∧
      (generate ⟨some "10,20", none⟩ =
          ⟨.fileDownload "2pd_wheel.stl" "model/stl", true, some (sortedSet [10, 20])⟩ ∧
        (generate ⟨some "10,20", none⟩).resp.status = 200) :=
  ⟨by decide, by decide, by decide, by decide,
    C7_success_response ⟨some "10,20", none⟩ [10, 20]
      (by decide) (by decide) (by decide) (by decide)⟩

/-- C8: the parsed distance list ignores extra commas and whitespace
padding anywhere around tokens, because split segments that are empty
after stripping are discarded and stripping removes the padding; in
particular `" 5 , ,7 "` and `"5,7"` parse alike. -/
theorem C8_whitespace_and_empty_tokens (a b ws : List Char)
    (hws : ∀ c ∈ ws, c.isWhitespace) :
    parseDistancesC (a ++ ',' :: ',' :: b) = parseDistancesC (a ++ ',' :: b) ∧
      parseDistancesC (a ++ ws ++ ',' :: b) = parseDistancesC (a ++ ',' :: b) ∧
      parseDistancesC (a ++ ',' :: (ws ++ b)) = parseDistancesC (a ++ ',' :: b) ∧
      parseDistancesC (ws ++ b) = parseDistancesC b ∧
      parseDistancesC (b ++ ws) = parseDistancesC b ∧
      parseDistances " 5 , ,7 " = parseDistances "5,7" := by
  refine ⟨?_, ?_, ?_, ?_, ?_, by decide⟩
  · unfold parseDistancesC
    rw [tokensC_append_comma, tokensC_comma_cons, tokensC_append_comma]
  · unfold parseDistancesC
    rw [List.append_assoc, tokensC_append_comma]
    rw [show a ++ (ws ++ ',' :: b) = (a ++ ws) ++ ',' :: b by rw [List.append_assoc],
      tokensC_append_comma, tokensC_ws_suffix a ws hws]
  · unfold parseDistancesC
    rw [tokensC_append_comma, tokensC_append_comma, tokensC_ws_left ws b hws]
  · unfold parseDistancesC
    rw [tokensC_ws_left ws b hws]
  · unfold parseDistancesC
    rw [tokensC_ws_suffix b ws hws]

/-- Witness for C8 with a one-space padding around the tokens `1` and `2`. -/
theorem C8_whitespace_and_empty_tokens_witness :
    (∀ c ∈ ([' '] : List Char), c.isWhitespace) ∧
      (parseDistancesC (['1'] ++ ',' :: ',' :: ['2']) =
          parseDistancesC (['1'] ++ ',' :: ['2']) ∧
        parseDistancesC (['1'] ++ [' '] ++ ',' :: ['2']) =
          parseDistancesC (['1'] ++ ',' :: ['2']) ∧
        parseDistancesC (['1'] ++ ',' :: ([' '] ++ ['2'])) =
          parseDistancesC (['1'] ++ ',' :: ['2']) ∧
        parseDistancesC ([' '] ++ ['2']) = parseDistancesC ['2'] ∧
        parseDistancesC (['2'] ++ [' ']) = parseDistancesC ['2'] ∧
        parseDistances " 5 , ,7 " = parseDistances "5,7") :=
  ⟨by decide, C8_whitespace_and_empty_tokens ['1'] ['2'] [' '] (by decide)⟩

/-- C9: the handler reads field `distances_mm`; a falsy value (absent or
empty) falls back to field `distances`; when both are falsy the input is
the empty string, which parses to the empty list and draws the 400
too-few-distances response. -/
theorem C9_field_fallback (f : Form) :
    (∀ s, f.distances_mm = some s → s ≠ "" → formValue f = s) ∧
      (absentOrEmpty f.distances_mm →
        ∀ t, f.distances = some t → t ≠ "" → formValue f = t) ∧
      (absentOrEmpty f.distances_mm → absentOrEmpty f.distances →
        formValue f = "" ∧
          generate f =
            ⟨.jsonError "Please enter at least two distances.", false, none⟩) := by
  refine ⟨?_, ?_, ?_⟩
  · intro s hs hne
    simp [formValue, orElseStr, hs, String.isEmpty_iff, hne]
  · intro hmm t ht hne
    rcases hmm with hmm | hmm <;>
      simp [formValue, orElseStr, hmm, ht, String.isEmpty_iff, hne]
  · intro hmm hd
    have hfv : formValue f = "" := by
      rcases hmm with hmm | hmm <;> rcases hd with hd | hd <;>
        simp [formValue, orElseStr, hmm, hd]
    have hpe : parseDistances (formValue f) = some [] := by
      rw [hfv]
      decide
    have hlt : (sortedSet ([] : List ℚ)).length < 2 := by decide
    rw [generate_parse_some hpe, if_pos hlt]
    exact ⟨hfv, rfl⟩

/-- Witness for C9: the primary field wins when truthy, an empty primary
field falls back to the secondary one, and two falsy fields produce the
too-few-distances error. -/
theorem C9_field_fallback_witness :
    formValue ⟨some "9", some "8"⟩ = "9" ∧
      formValue ⟨some "", some "7,8"⟩ = "7,8" ∧
      (formValue ⟨none, some ""⟩ = "" ∧
        generate ⟨none, some ""⟩ =
          ⟨.jsonError "Please enter at least two distances.", false, none⟩) :=
  ⟨(C9_field_fallback ⟨some "9", some "8"⟩).1 "9" rfl (by decide),
    (C9_field_fallback ⟨some "", some "7,8"⟩).2.1 (Or.inr rfl) "7,8" rfl (by decide),
    (C9_field_fallback ⟨none, some ""⟩).2.2 (Or.inl rfl) (Or.inr rfl)⟩

/-- C10: a 400 response comes with no side effects: the mesh generator is
never called and no temporary directory is created. -/
theorem C10_no_side_effects_on_error (f : Form)
    (h : (generate f).resp.status = 400) :
    (generate f).stlCall = none ∧ (generate f).tmpdirCreated = false := by
  rcases hp : parseDistances (formValue f) with _ | parsed
  · rw [generate_parse_none hp]
    exact ⟨rfl, rfl⟩
  · rw [generate_parse_some hp] at h ⊢
    split_ifs at h ⊢ with h1 h2 h3
    · exact ⟨rfl, rfl⟩
    · exact ⟨rfl, rfl⟩
    · exact ⟨rfl, rfl⟩
    · simp [Response.status] at h

/-- Witness for C10 at the erroneous input `"abc"`. -/
theorem C10_no_side_effects_on_error_witness :
    (generate ⟨some "abc", none⟩).resp.status = 400 ∧
      ((generate ⟨some "abc", none⟩).stlCall = none ∧
        (generate ⟨some "abc", none⟩).tmpdirCreated = false) :=
  ⟨by decide, C10_no_side_effects_on_error ⟨some "abc", none⟩ (by decide)⟩

end App
